import Mathlib

/-!
Verification of the SqueezeMeta `lib/utils.py` aggregation engine.

We shallowly embed the relevant functions:
  * `parse_tax_string` (taxonomy string parser),
  * `update_dicts`, `parse_orf_table` (ORF table aggregation engine, modelled
    at the level of already-split rows; the raw tab-splitting / header lookup
    of the file is I/O and not modelled),
  * the inner `tpm` helper and `normalize_abunds`.

Numeric model: Python/numpy float64 values are idealized as exact rationals
extended with `nan`/`inf`/`-inf` (type `FV`); integer columns are `Int`/`Nat`.
numpy arrays of per-sample values are functions `Fin n → _` for a fixed
sample count `n`.  Python dictionaries (insertion ordered, unique keys) are
association lists `List (String × _)`; `defaultdict(int)` lookup misses give
the zero vector, which is what broadcasting `0 + array` produces.
-/

namespace SqueezeMeta

/-! ### String helpers mirroring the Python `str` methods used by the source -/

/-- Python `s.strip(c)` for a single character: drop `c` from both ends. -/
def stripChar (c : Char) (l : List Char) : List Char :=
  ((l.dropWhile (· = c)).reverse.dropWhile (· = c)).reverse

/-- Python `s.split(c)`: split at every occurrence of `c`; always returns at
least one (possibly empty) piece. -/
def splitChar (c : Char) : List Char → List (List Char)
  | [] => [[]]
  | x :: xs =>
    if x = c then [] :: splitChar c xs
    else
      match splitChar c xs with
      | [] => [[x]]
      | p :: ps => (x :: p) :: ps

/-- Python `s.split(c, 1)` when `c` occurs: the pieces before and after the
first occurrence; `none` when `c` does not occur. -/
def splitFirst (c : Char) : List Char → Option (List Char × List Char)
  | [] => none
  | x :: xs =>
    if x = c then some ([], xs)
    else (splitFirst c xs).map (fun p => (x :: p.1, p.2))

/-- Python `s.replace('*','')`. -/
def stripStar (s : String) : String := ⟨s.data.filter (· ≠ '*')⟩

/-! ### Idealized float values

`FV` models a numpy float64 result: an exact rational, `nan`, or a signed
infinity.  `seterr` in the source silences divide/invalid warnings, so
divisions by zero really do produce `nan`/`inf` values that flow onward. -/

inductive FV where
  | nan : FV
  | inf : FV
  | ninf : FV
  | val : ℚ → FV
deriving DecidableEq

namespace FV

/-- Float addition. -/
def fadd : FV → FV → FV
  | nan, _ => nan
  | _, nan => nan
  | inf, ninf => nan
  | ninf, inf => nan
  | inf, _ => inf
  | _, inf => inf
  | ninf, _ => ninf
  | _, ninf => ninf
  | val a, val b => val (a + b)

/-- Float multiplication. -/
def fmul : FV → FV → FV
  | nan, _ => nan
  | _, nan => nan
  | inf, inf => inf
  | inf, ninf => ninf
  | ninf, inf => ninf
  | ninf, ninf => inf
  | inf, val b => if 0 < b then inf else if b < 0 then ninf else nan
  | val a, inf => if 0 < a then inf else if a < 0 then ninf else nan
  | ninf, val b => if 0 < b then ninf else if b < 0 then inf else nan
  | val a, ninf => if 0 < a then ninf else if a < 0 then inf else nan
  | val a, val b => val (a * b)

/-- Float division.  `0/0 = nan`, `x/0 = ±inf` for `x ≠ 0` (we have no signed
zero, so division by zero behaves as division by `+0`). -/
def fdiv : FV → FV → FV
  | nan, _ => nan
  | _, nan => nan
  | inf, inf => nan
  | inf, ninf => nan
  | ninf, inf => nan
  | ninf, ninf => nan
  | inf, val b => if b < 0 then ninf else inf
  | ninf, val b => if b < 0 then inf else ninf
  | val _, inf => val 0
  | val _, ninf => val 0
  | val a, val b =>
    if b = 0 then (if a = 0 then nan else if 0 < a then inf else ninf)
    else val (a / b)

/-- numpy `isnan`. -/
def isnan : FV → Bool
  | nan => true
  | _ => false

end FV

/-! ### Association-list dictionaries -/

/-- Lookup in a Python dict (first — and only — matching key). -/
def dictGet? {α : Type} : List (String × α) → String → Option α
  | [], _ => none
  | (k', v) :: rest, k => if k' = k then some v else dictGet? rest k

/-- Python `defaultdict` `d[k] += v`: add to the existing entry, or start a
fresh entry from the default `0` (so just `v`). -/
def dictAdd {α : Type} [Add α] : List (String × α) → String → α → List (String × α)
  | [], k, v => [(k, v)]
  | (k', v') :: rest, k, v =>
    if k' = k then (k', v' + v) :: rest else (k', v') :: dictAdd rest k v

/-- Python dict assignment `d[k] = v` (overwrite or append). -/
def dictSet {α : Type} : List (String × α) → String → α → List (String × α)
  | [], k, v => [(k, v)]
  | (k', v') :: rest, k, v =>
    if k' = k then (k', v) :: rest else (k', v') :: dictSet rest k v

/-- Update the value stored at an existing key in place (used for the
`custom[method]` dictionaries, whose keys are fixed at initialization). -/
def assocMap {α : Type} : List (String × α) → String → (α → α) → List (String × α)
  | [], _, _ => []
  | (k', v) :: rest, k, f =>
    if k' = k then (k', f v) :: rest else (k', v) :: assocMap rest k f

/-- Lookup in a `defaultdict(int)`: missing keys read as zero. -/
def dget {α : Type} [Zero α] (d : List (String × α)) (k : String) : α :=
  (dictGet? d k).getD 0

/-- Sum of all values of a dictionary (per-sample totals across entities). -/
def dictTotal {α : Type} [AddCommMonoid α] (d : List (String × α)) : α :=
  (d.map Prod.snd).sum

/-! ### Taxonomy string parser (`parse_tax_string`, utils.py lines 275-314) -/

def TAXRANKS : List String :=
  ["superkingdom", "phylum", "class", "order", "family", "genus", "species"]

def TAXRANKS_SHORT : List String := ["k", "p", "c", "o", "f", "g", "s"]

/-- Token dict construction
`dict([r.split('_', 1) for r in taxString.strip(';').split(';')])`: each
token must contain an underscore, otherwise Python's `dict()` raises
`ValueError` (a 1-element sequence cannot update a dict). -/
def tokenizePairs : List (List Char) → Except String (List (String × String))
  | [] => Except.ok []
  | t :: ts =>
    match splitFirst '_' t with
    | none => Except.error "dictionary update sequence element has length 1"
    | some (a, b) => (tokenizePairs ts).map (fun rest => ((⟨a⟩ : String), (⟨b⟩ : String)) :: rest)

/-- Lookup in the token dict: later occurrences of the same key overwrite
earlier ones ("We only preserve the last"). -/
def taxLookup (pairs : List (String × String)) (k : String) : Option String :=
  match pairs with
  | [] => none
  | (k', v) :: rest =>
    match taxLookup rest k with
    | some v' => some v'
    | none => if k' = k then some v else none

/-- Full rank name `TAXRANKS[TAXRANKS_SHORT.index(rank)]`. -/
def rankFullName (rank : String) : String :=
  ((TAXRANKS_SHORT.zip TAXRANKS).lookup rank).getD ""

/-- The walk over ranks from species up to superkingdom, tracking
`lastRankFound` (empty string = nothing found yet).  Produces the taxa in
most-specific-first order. -/
def taxWalk (look : String → Option String) : List String → String → List String
  | [], _ => []
  | rank :: rest, lastRankFound =>
    match look rank with
    | some name => name :: taxWalk look rest rank
    | none =>
      if lastRankFound ≠ "" then
        ((look lastRankFound).getD "" ++ " (no " ++ rankFullName rank ++ " in NCBI)") ::
          taxWalk look rest lastRankFound
      else
        taxWalk look rest lastRankFound

/-- The 7-element superkingdom-first taxon list built from the token dict:
walk, pad the front with the unclassified placeholder, then reverse. -/
def taxListOf (toks : List (String × String)) : List String :=
  let taxList := taxWalk (taxLookup toks) TAXRANKS_SHORT.reverse ""
  let unclassString :=
    match taxList with
    | [] => "Unclassified"
    | t0 :: _ => "Unclassified " ++ t0
  (List.replicate (7 - taxList.length) unclassString ++ taxList).reverse

/-- Build the cumulative rank-prefixed strings (`taxList_wranks`), carrying
the previously built string (`taxList_wranks[-1]`). -/
def mkWranks : List (String × String) → Option String → List String
  | [], _ => []
  | (r, t) :: rest, prev =>
    let s :=
      match prev with
      | none => r ++ "_" ++ t
      | some p => p ++ ";" ++ (r ++ "_" ++ t)
    s :: mkWranks rest (some s)

/-- The pure part of `parse_tax_string` after the token dict is built. -/
def parseTaxTokens (toks : List (String × String)) : List String × List String :=
  let taxList := taxListOf toks
  (taxList, mkWranks (TAXRANKS_SHORT.zip taxList) none)

/-- The full `parse_tax_string`: tokenize (which can fail like Python's `dict()` does)
and run the rank walk. -/
def parse_tax_string (taxString : String) : Except String (List String × List String) :=
  (tokenizePairs (splitChar ';' (stripChar ';' taxString.data))).map parseTaxTokens

/-! ### ORF table aggregation engine (`parse_orf_table`, utils.py lines 44-183)

The engine is modelled at the level of data rows whose columns have already
been split and numerically parsed (header-name column lookup and the
tab-separated file format are I/O concerns; a numeric parse failure is fatal
in the source and is modelled by typing the fields).  Per-sample columns are
vectors over `Fin n` for the fixed sample count `n`. -/

/-- Per-sample vector of exact numbers (numpy array of int/float). -/
abbrev Vec (n : ℕ) := Fin n → ℚ

/-- Per-sample vector of idealized floats. -/
abbrev FVec (n : ℕ) := Fin n → FV

/-- Elementwise division of a vector by an integer (numpy `array / len(funs)`). -/
def vdivN {n : ℕ} (v : Vec n) (m : ℕ) : Vec n := fun i => v i / (m : ℚ)

/-- Lift an exact vector into the float world. -/
def toFVec {n : ℕ} (v : Vec n) : FVec n := fun i => FV.val (v i)

/-- One data row of the ORF table, with columns already split and parsed.
`lengthNT = none` models an empty `Length NT` cell (rRNA rows).  The custom
columns are total functions from the method name, mirroring `line[idx[method]]`
and `line[idx[method + ' NAME']]`. -/
structure Row (n : ℕ) where
  orfId : String
  lengthNT : Option ℕ
  abundances : Fin n → ℤ
  bases : Fin n → ℤ
  coverages : Fin n → ℚ
  keggCell : String
  keggFun : String
  keggPath : String
  cogCell : String
  cogFun : String
  cogPath : String
  pfamCell : String
  customCell : String → String
  customName : String → String

/-- One scheme's accumulators: the five per-sample statistic dictionaries and
the `info` side table. -/
structure FunData (n : ℕ) where
  abundances : List (String × Vec n)
  bases : List (String × Vec n)
  coverages : List (String × Vec n)
  copies : List (String × Vec n)
  lengths : List (String × Vec n)
  info : List (String × List String)

/-- The empty scheme accumulator. -/
def emptyFunData (n : ℕ) : FunData n :=
  { abundances := [], bases := [], coverages := [], copies := [], lengths := [], info := [] }

/-- The engine's working state during the row pass. -/
structure OrfState (n : ℕ) where
  orfs : FunData n
  kegg : FunData n
  cog : FunData n
  pfam : FunData n
  custom : List (String × FunData n)

/-- Initial state: fresh dictionaries, one per custom method
(`{method: ... for method in custom_methods}`, later duplicates overwrite). -/
def initState (n : ℕ) (customMethods : List String) : OrfState n :=
  { orfs := emptyFunData n, kegg := emptyFunData n, cog := emptyFunData n,
    pfam := emptyFunData n,
    custom := customMethods.foldl (fun c m => dictSet c m (emptyFunData n)) [] }

/-- Function ID list `funs = ['Unclassified'] if not funs else funs.strip(';').split(';')`,
applied to the asterisk-stripped cell. -/
def splitFuns (cell : String) : List String :=
  let funs := stripStar cell
  if funs = "" then ["Unclassified"]
  else (splitChar ';' (stripChar ';' funs.data)).map (fun l => (⟨l⟩ : String))

/-- The trusted-only skip test on the raw cell:
`trusted_only and line[funIdx] and line[funIdx][-1] != '*'`. -/
def trustedSkip (trusted_only : Bool) (cell : String) : Prop :=
  trusted_only = true ∧ cell ≠ "" ∧ cell.data.getLast? ≠ some '*'

instance (t : Bool) (c : String) : Decidable (trustedSkip t c) :=
  inferInstanceAs (Decidable (t = true ∧ c ≠ "" ∧ c.data.getLast? ≠ some '*'))

/-- The aggregator `update_dicts` (utils.py lines 78-93): split the cell on semicolons,
divide the abundance/base/coverage/length contributions evenly across the
resulting function IDs, and add a full undivided copy unit to each. -/
def update_dicts {n : ℕ} (funDict : FunData n) (cell : String)
    (trusted_only ignore_unclassified_fun : Bool)
    (abundances bases coverages copies lengths : Vec n) : FunData n :=
  if trustedSkip trusted_only cell then funDict
  else
    let funs := splitFuns cell
    funs.foldl (fun fd f =>
      if ignore_unclassified_fun = true ∧ f = "Unclassified" then fd
      else
        { fd with
          abundances := dictAdd fd.abundances f (vdivN abundances funs.length)
          bases := dictAdd fd.bases f (vdivN bases funs.length)
          coverages := dictAdd fd.coverages f (vdivN coverages funs.length)
          copies := dictAdd fd.copies f copies
          lengths := dictAdd fd.lengths f (vdivN lengths funs.length) }) funDict

/-- The row's abundance vector as exact numbers. -/
def abundVec {n : ℕ} (r : Row n) : Vec n := fun i => (r.abundances i : ℚ)

/-- The row's base-count vector as exact numbers. -/
def basesVec {n : ℕ} (r : Row n) : Vec n := fun i => (r.bases i : ℚ)

/-- Per-sample copies `copies = (abundances>0).astype(int)`. -/
def copiesVec {n : ℕ} (r : Row n) : Vec n := fun i => if 0 < r.abundances i then 1 else 0

/-- Per-sample lengths `lengths = length * copies`. -/
def lengthsVec {n : ℕ} (r : Row n) (length : ℕ) : Vec n :=
  fun i => (length : ℚ) * copiesVec r i

/-- The five per-ORF assignments `orfs['...'][orf] = ...` (lines 137-141). -/
def setOrfs {n : ℕ} (o : FunData n) (r : Row n) (length : ℕ) : FunData n :=
  { o with
    abundances := dictSet o.abundances r.orfId (abundVec r)
    bases := dictSet o.bases r.orfId (basesVec r)
    coverages := dictSet o.coverages r.orfId r.coverages
    copies := dictSet o.copies r.orfId (copiesVec r)
    lengths := dictSet o.lengths r.orfId (lengthsVec r length) }

/-- Info registration plus aggregation for one scheme: set
`info[stripped ID]` when the stripped ID is non-empty, then run
`update_dicts` on the raw cell. -/
def schemeStep {n : ℕ} (fd : FunData n) (cell : String) (infoVal : List String)
    (trusted_only ignore_unclassified_fun : Bool)
    (abundances bases coverages copies lengths : Vec n) : FunData n :=
  let ID := stripStar cell
  let fd := if ID ≠ "" then { fd with info := dictSet fd.info ID infoVal } else fd
  update_dicts fd cell trusted_only ignore_unclassified_fun
    abundances bases coverages copies lengths

/-- Python truthiness of the `orfSet` argument combined with the membership
test: `if orfSet and orf not in orfSet` (an empty set is falsy, so it
disables the filter). -/
def orfSkip (orfSet : Option (List String)) (orf : String) : Bool :=
  match orfSet with
  | none => false
  | some l => !l.isEmpty && !l.contains orf

/-- One iteration of the row loop (utils.py lines 121-159). -/
def processRow {n : ℕ} (nokegg nocog nopfam trusted_only ignore_unclassified_fun : Bool)
    (customMethods : List String) (orfSet : Option (List String))
    (st : OrfState n) (r : Row n) : OrfState n :=
  if orfSkip orfSet r.orfId then st
  else
    let length := r.lengthNT.getD 0
    if length = 0 then st
    else
      let abundances := abundVec r
      let bases := basesVec r
      let coverages := r.coverages
      let copies := copiesVec r
      let lengths := lengthsVec r length
      { orfs := setOrfs st.orfs r length
        kegg :=
          if nokegg then st.kegg
          else schemeStep st.kegg r.keggCell [r.keggFun, r.keggPath]
            trusted_only ignore_unclassified_fun abundances bases coverages copies lengths
        cog :=
          if nocog then st.cog
          else schemeStep st.cog r.cogCell [r.cogFun, r.cogPath]
            trusted_only ignore_unclassified_fun abundances bases coverages copies lengths
        pfam :=
          if nopfam then st.pfam
          else update_dicts st.pfam r.pfamCell false ignore_unclassified_fun
            abundances bases coverages copies lengths
        custom :=
          customMethods.foldl (fun c m =>
            assocMap c m (fun fd =>
              schemeStep fd (r.customCell m) [r.customName m]
                trusted_only ignore_unclassified_fun
                abundances bases coverages copies lengths)) st.custom }

/-! ### TPM and normalization (utils.py lines 96-107 and 333-340) -/

/-- The per-sample running total `abundPerSample` (starts from the scalar
zero, which broadcasts). -/
def fvSum {n : ℕ} (d : List (String × FVec n)) : FVec n :=
  d.foldl (fun acc kv => fun i => FV.fadd (acc i) (kv.2 i)) (fun _ => FV.val 0)

/-- The normalizer `normalize_abunds`: divide every entity's vector by the per-sample total
and multiply by the scale (`scale * abund / abundPerSample`). -/
def normalize_abunds {n : ℕ} (abundDict : List (String × FVec n)) (scale : FV) :
    List (String × FVec n) :=
  abundDict.map (fun kv => (kv.1, fun i => FV.fdiv (FV.fmul scale (kv.2 i)) (fvSum abundDict i)))

/-- Average lengths `fun_avgLengths = {fun: lengths[fun] / copies[fun] for fun in lengths}`;
a fun with no copies in a sample yields `nan`.  The `copies` lookup reads the
`defaultdict` zero on a miss; for every dictionary the engine builds, the key
sets of the five statistic dictionaries coincide. -/
def fun_avgLengths {n : ℕ} (fd : FunData n) : List (String × FVec n) :=
  fd.lengths.map (fun kv => (kv.1, fun i => FV.fdiv (FV.val (kv.2 i)) (FV.val (dget fd.copies kv.1 i))))

/-- Reads per kilobase `fun_rpk = {fun: bases[fun] / (avgLengths[fun]/1000) for fun in bases}`.
The `avgLengths` lookup cannot miss for engine-built dictionaries (same key
sets); a miss is modelled as `nan`. -/
def fun_rpk {n : ℕ} (fd : FunData n) : List (String × FVec n) :=
  fd.bases.map (fun kv => (kv.1, fun i =>
    FV.fdiv (FV.val (kv.2 i))
      (FV.fdiv (((dictGet? (fun_avgLengths fd) kv.1).getD (fun _ => FV.nan)) i) (FV.val 1000))))

/-- NaN removal `rpk[isnan(rpk)] = 0`: not-a-number reads-per-kilobase entries are
overwritten with zero. -/
def rpk_clean {n : ℕ} (fd : FunData n) : List (String × FVec n) :=
  (fun_rpk fd).map (fun kv => (kv.1, fun i => if (kv.2 i).isnan then FV.val 0 else kv.2 i))

/-- The inner `tpm` helper: reads per kilobase, NaN removal, then
normalization to 1,000,000 per sample. -/
def tpm {n : ℕ} (fd : FunData n) : List (String × FVec n) :=
  normalize_abunds (rpk_clean fd) (FV.val 1000000)

/-- One scheme's copy-number mapping, `{k: cov/RecA for k, cov in coverages}`. -/
def copyNum {n : ℕ} (coverages : List (String × Vec n)) (RecA : FVec n) :
    List (String × FVec n) :=
  coverages.map (fun kv => (kv.1, fun i => FV.fdiv (FV.val (kv.2 i)) (RecA i)))

/-- The finished result of `parse_orf_table`: the accumulators, the `tpm`
mappings (absent for disabled schemes), and the copy-number mappings (absent
when COG aggregation is off or the COG0468 marker key is missing). -/
structure OrfResult (n : ℕ) where
  orfs : FunData n
  kegg : FunData n
  cog : FunData n
  pfam : FunData n
  custom : List (String × FunData n)
  orfsTpm : List (String × FVec n)
  keggTpm : Option (List (String × FVec n))
  cogTpm : Option (List (String × FVec n))
  pfamTpm : Option (List (String × FVec n))
  customTpm : List (String × List (String × FVec n))
  keggCopyNumber : Option (List (String × FVec n))
  cogCopyNumber : Option (List (String × FVec n))
  pfamCopyNumber : Option (List (String × FVec n))
  customCopyNumber : Option (List (String × List (String × FVec n)))

/-- The engine `parse_orf_table`: fold the row loop over the table, then finalize with
`tpm` per scheme and the COG0468-relative copy numbers
(`if not nocog and 'COG0468' in cog['coverages']`). -/
def parse_orf_table {n : ℕ} (nokegg nocog nopfam trusted_only ignore_unclassified_fun : Bool)
    (customMethods : List String) (orfSet : Option (List String))
    (rows : List (Row n)) : OrfResult n :=
  let st := rows.foldl
    (processRow nokegg nocog nopfam trusted_only ignore_unclassified_fun customMethods orfSet)
    (initState n customMethods)
  let recAPresent := (!nocog && (dictGet? st.cog.coverages "COG0468").isSome)
  let RecA : FVec n := toFVec (dget st.cog.coverages "COG0468")
  { orfs := st.orfs, kegg := st.kegg, cog := st.cog, pfam := st.pfam, custom := st.custom,
    orfsTpm := tpm st.orfs,
    keggTpm := if nokegg then none else some (tpm st.kegg),
    cogTpm := if nocog then none else some (tpm st.cog),
    pfamTpm := if nopfam then none else some (tpm st.pfam),
    customTpm := st.custom.map (fun kv => (kv.1, tpm kv.2)),
    keggCopyNumber := if recAPresent then some (copyNum st.kegg.coverages RecA) else none,
    cogCopyNumber := if recAPresent then some (copyNum st.cog.coverages RecA) else none,
    pfamCopyNumber := if recAPresent then some (copyNum st.pfam.coverages RecA) else none,
    customCopyNumber :=
      if recAPresent then some (st.custom.map (fun kv => (kv.1, copyNum kv.2.coverages RecA)))
      else none }

/-- Whether a data row survives both skip tests of the row loop (the
`orfSet` filter and the zero/absent `Length NT` filter) and therefore
contributes to the accumulators. -/
def rowProcessed {n : ℕ} (orfSet : Option (List String)) (r : Row n) : Bool :=
  !orfSkip orfSet r.orfId && !(r.lengthNT.getD 0 == 0)

/-! ### Exact-valued dictionaries for the normalizer algebra -/

/-- Lift a dictionary of exact per-sample vectors into the float world. -/
def fvDict {n : ℕ} (D : List (String × Vec n)) : List (String × FVec n) :=
  D.map (fun kv => (kv.1, toFVec kv.2))

/-- Per-sample totals of a dictionary of exact vectors. -/
def qTotal {n : ℕ} (D : List (String × Vec n)) : Vec n := (D.map Prod.snd).sum

/-- The exact-arithmetic counterpart of `normalize_abunds` (what the source
computes when no division by zero occurs). -/
def qnormalize {n : ℕ} (D : List (String × Vec n)) (s : ℚ) : List (String × Vec n) :=
  D.map (fun kv => (kv.1, fun i => s * kv.2 i / qTotal D i))

/-! ### Concrete inputs used by counterexamples and witnesses -/

/-- A row with two samples, one ORF annotated with the trusted multi-KO cell
`"K00001*;K00002*"`, read counts `[10, 0]` and `Length NT` 300. -/
def rowMultiKO : Row 2 :=
  { orfId := "ORF1", lengthNT := some 300, abundances := ![10, 0], bases := ![0, 0],
    coverages := ![0, 0], keggCell := "K00001*;K00002*", keggFun := "", keggPath := "",
    cogCell := "", cogFun := "", cogPath := "", pfamCell := "",
    customCell := fun _ => "", customName := fun _ => "" }

/-- A one-sample row with zero read count and zero base count (so zero
copies), giving a zero reads-per-kilobase total for its sample. -/
def rowAllZero : Row 1 :=
  { orfId := "ORF1", lengthNT := some 100, abundances := ![0], bases := ![0],
    coverages := ![0], keggCell := "", keggFun := "", keggPath := "",
    cogCell := "", cogFun := "", cogPath := "", pfamCell := "",
    customCell := fun _ => "", customName := fun _ => "" }

/-- A one-sample row annotated with the COG0468 marker but with coverage 0. -/
def rowZeroCovRecA : Row 1 :=
  { orfId := "ORF1", lengthNT := some 100, abundances := ![1], bases := ![10],
    coverages := ![0], keggCell := "", keggFun := "", keggPath := "",
    cogCell := "COG0468", cogFun := "", cogPath := "", pfamCell := "",
    customCell := fun _ => "", customName := fun _ => "" }

/-- The engine result on the one-row multi-KO table, all schemes enabled,
no trusted-only policy, unclassified kept. -/
def resMultiKO : OrfResult 2 :=
  parse_orf_table false false false false false [] none [rowMultiKO]

/-- The taxon list produced for the input `"k_Bacteria"`. -/
def taxListKB : List String :=
  ["Bacteria", "Unclassified Bacteria", "Unclassified Bacteria", "Unclassified Bacteria",
   "Unclassified Bacteria", "Unclassified Bacteria", "Unclassified Bacteria"]

/-- The rank-prefixed strings produced for the input `"k_Bacteria"`. -/
def wranksKB : List String :=
  ["k_Bacteria",
   "k_Bacteria;p_Unclassified Bacteria",
   "k_Bacteria;p_Unclassified Bacteria;c_Unclassified Bacteria",
   "k_Bacteria;p_Unclassified Bacteria;c_Unclassified Bacteria;o_Unclassified Bacteria",
   "k_Bacteria;p_Unclassified Bacteria;c_Unclassified Bacteria;o_Unclassified Bacteria;f_Unclassified Bacteria",
   "k_Bacteria;p_Unclassified Bacteria;c_Unclassified Bacteria;o_Unclassified Bacteria;f_Unclassified Bacteria;g_Unclassified Bacteria",
   "k_Bacteria;p_Unclassified Bacteria;c_Unclassified Bacteria;o_Unclassified Bacteria;f_Unclassified Bacteria;g_Unclassified Bacteria;s_Unclassified Bacteria"]

/-- First of two rows sharing the ORF identifier `"ORFX"`. -/
def rowDupA : Row 1 :=
  { orfId := "ORFX", lengthNT := some 100, abundances := ![2], bases := ![20],
    coverages := ![1], keggCell := "K00001", keggFun := "", keggPath := "",
    cogCell := "", cogFun := "", cogPath := "", pfamCell := "",
    customCell := fun _ => "", customName := fun _ => "" }

/-- Second of two rows sharing the ORF identifier `"ORFX"`. -/
def rowDupB : Row 1 :=
  { orfId := "ORFX", lengthNT := some 200, abundances := ![3], bases := ![30],
    coverages := ![2], keggCell := "K00002", keggFun := "", keggPath := "",
    cogCell := "", cogFun := "", cogPath := "", pfamCell := "",
    customCell := fun _ => "", customName := fun _ => "" }

/-- A one-entity, one-sample scheme accumulator whose statistics are all
zero (as produced by a row with zero reads and bases). -/
def fdAllZero : FunData 1 :=
  { abundances := [("f", fun _ => 0)], bases := [("f", fun _ => 0)],
    coverages := [("f", fun _ => 0)], copies := [("f", fun _ => 0)],
    lengths := [("f", fun _ => 0)], info := [] }

/-- A one-entity, one-sample exact abundance dictionary with a non-zero
per-sample total. -/
def dNorm : List (String × Vec 1) := [("a", fun _ => 1)]

/-- A row whose `Length NT` cell is empty (an rRNA entry), with otherwise
non-trivial statistics and annotations. -/
def rowNoLength : Row 1 :=
  { orfId := "rRNA1", lengthNT := none, abundances := ![3], bases := ![30],
    coverages := ![1], keggCell := "K99999*", keggFun := "f", keggPath := "p",
    cogCell := "COG9999*", cogFun := "f", cogPath := "p", pfamCell := "PF1",
    customCell := fun _ => "", customName := fun _ => "" }

/-! ### Helper lemmas about the taxonomy parser -/

lemma taxLookup_eq_none {toks : List (String × String)} {k : String}
    (h : ∀ kv ∈ toks, kv.1 ≠ k) : taxLookup toks k = none := by
  induction toks with
  | nil => rfl
  | cons kv rest ih =>
    have h1 : kv.1 ≠ k := h kv (by simp)
    have h2 : taxLookup rest k = none := ih (fun x hx => h x (by simp [hx]))
    simp [taxLookup, h2, h1]

lemma taxWalk_all_none {look : String → Option String} {ranks : List String}
    (h : ∀ r ∈ ranks, look r = none) : taxWalk look ranks "" = [] := by
  induction ranks with
  | nil => rfl
  | cons r rest ih =>
    have h1 : look r = none := h r (by simp)
    have h2 := ih (fun x hx => h x (by simp [hx]))
    simp [taxWalk, h1, h2]

lemma taxWalk_length_le (look : String → Option String) (ranks : List String) (last : String) :
    (taxWalk look ranks last).length ≤ ranks.length := by
  induction ranks generalizing last with
  | nil => simp [taxWalk]
  | cons r rest ih =>
    rw [taxWalk]
    cases look r with
    | some name => simpa using ih r
    | none =>
      by_cases h : last = ""
      · subst h
        simp
        exact Nat.le_succ_of_le (ih "")
      · simp [h]
        exact ih last

lemma taxListOf_length (toks : List (String × String)) : (taxListOf toks).length = 7 := by
  have h := taxWalk_length_le (taxLookup toks) TAXRANKS_SHORT.reverse ""
  have h7 : TAXRANKS_SHORT.reverse.length = 7 := rfl
  rw [h7] at h
  unfold taxListOf
  simp
  omega

lemma exists_seven {α : Type} (l : List α) (h : l.length = 7) :
    ∃ a b c d e f g, l = [a, b, c, d, e, f, g] := by
  rcases l with _ | ⟨a, l⟩; · simp at h
  rcases l with _ | ⟨b, l⟩; · simp at h
  rcases l with _ | ⟨c, l⟩; · simp at h
  rcases l with _ | ⟨d, l⟩; · simp at h
  rcases l with _ | ⟨e, l⟩; · simp at h
  rcases l with _ | ⟨f, l⟩; · simp at h
  rcases l with _ | ⟨g, l⟩; · simp at h
  rcases l with _ | ⟨x, l⟩
  · exact ⟨a, b, c, d, e, f, g, rfl⟩
  · simp at h

lemma mkWranks_nested (tl : List String) (h : tl.length = 7) :
    (mkWranks (TAXRANKS_SHORT.zip tl) none).length = 7 ∧
    ∀ i : ℕ, 1 ≤ i → i < 7 →
      (mkWranks (TAXRANKS_SHORT.zip tl) none).getD i "" =
        (mkWranks (TAXRANKS_SHORT.zip tl) none).getD (i - 1) "" ++ ";" ++
          (TAXRANKS_SHORT.getD i "" ++ "_" ++ tl.getD i "") := by
  obtain ⟨a, b, c, d, e, f, g, rfl⟩ := exists_seven tl h
  refine ⟨rfl, ?_⟩
  intro i h1 h7
  interval_cases i <;> rfl

/-! ### Helper lemmas about the aggregation engine -/

lemma dictTotal_dictAdd {α : Type} [AddCommMonoid α] (d : List (String × α)) (k : String)
    (v : α) : dictTotal (dictAdd d k v) = dictTotal d + v := by
  induction d with
  | nil => simp [dictAdd, dictTotal]
  | cons kv rest ih =>
    rcases kv with ⟨k', v'⟩
    by_cases h : k' = k
    · simp only [dictAdd, if_pos h, dictTotal, List.map_cons, List.sum_cons]
      abel
    · simp only [dictAdd, if_neg h, dictTotal, List.map_cons, List.sum_cons] at ih ⊢
      rw [ih]
      abel

lemma splitChar_ne_nil (c : Char) (l : List Char) : splitChar c l ≠ [] := by
  cases l with
  | nil => simp [splitChar]
  | cons x xs =>
    unfold splitChar
    by_cases h : x = c
    · simp [h]
    · simp only [h, if_false]
      cases hs : splitChar c xs with
      | nil => simp
      | cons p ps => simp

lemma splitFuns_length_pos (cell : String) : 0 < (splitFuns cell).length := by
  unfold splitFuns
  by_cases h : stripStar cell = ""
  · simp [h]
  · simp only [h, if_false, List.length_map]
    exact List.length_pos.mpr (splitChar_ne_nil ';' _)

lemma nsmul_vdivN {n : ℕ} (a : Vec n) (m : ℕ) (hm : m ≠ 0) : m • vdivN a m = a := by
  have hm0 : (m : ℚ) ≠ 0 := Nat.cast_ne_zero.mpr hm
  funext i
  simp only [Pi.smul_apply, vdivN, nsmul_eq_mul]
  field_simp

lemma foldl_accum_abund_total {n : ℕ} (fs : List String) (w wb wc wcp wl : Vec n) :
    ∀ fd : FunData n,
      dictTotal ((fs.foldl (fun fd f =>
        { fd with
          abundances := dictAdd fd.abundances f w
          bases := dictAdd fd.bases f wb
          coverages := dictAdd fd.coverages f wc
          copies := dictAdd fd.copies f wcp
          lengths := dictAdd fd.lengths f wl }) fd).abundances)
        = dictTotal fd.abundances + fs.length • w := by
  induction fs with
  | nil => intro fd; simp
  | cons f rest ih =>
    intro fd
    simp only [List.foldl_cons, List.length_cons]
    rw [ih]
    simp only [dictTotal_dictAdd, succ_nsmul]
    abel

lemma update_dicts_abund_total {n : ℕ} (fd : FunData n) (cell : String) (t : Bool)
    (a b c cp l : Vec n) (hskip : ¬ trustedSkip t cell) :
    dictTotal ((update_dicts fd cell t false a b c cp l).abundances)
      = dictTotal fd.abundances + a := by
  unfold update_dicts
  rw [if_neg hskip]
  simp only [Bool.false_eq_true, false_and, if_false]
  rw [foldl_accum_abund_total]
  rw [nsmul_vdivN a (splitFuns cell).length
    (Nat.pos_iff_ne_zero.mp (splitFuns_length_pos cell))]

lemma schemeStep_abund_total {n : ℕ} (fd : FunData n) (cell : String) (infoVal : List String)
    (t : Bool) (a b c cp l : Vec n) (hskip : ¬ trustedSkip t cell) :
    dictTotal ((schemeStep fd cell infoVal t false a b c cp l).abundances)
      = dictTotal fd.abundances + a := by
  unfold schemeStep
  rw [update_dicts_abund_total _ _ _ _ _ _ _ _ hskip]
  by_cases hID : stripStar cell ≠ "" <;> simp [hID]

lemma trustedSkip_false (cell : String) : ¬ trustedSkip false cell := by
  simp [trustedSkip]

lemma processRow_abund_totals {n : ℕ} (t : Bool) (cm : List String)
    (oset : Option (List String)) (st : OrfState n) (r : Row n)
    (hk : ¬ trustedSkip t r.keggCell) (hc : ¬ trustedSkip t r.cogCell) :
    dictTotal ((processRow false false false t false cm oset st r).kegg.abundances)
        = dictTotal st.kegg.abundances + (if rowProcessed oset r then abundVec r else 0) ∧
    dictTotal ((processRow false false false t false cm oset st r).cog.abundances)
        = dictTotal st.cog.abundances + (if rowProcessed oset r then abundVec r else 0) ∧
    dictTotal ((processRow false false false t false cm oset st r).pfam.abundances)
        = dictTotal st.pfam.abundances + (if rowProcessed oset r then abundVec r else 0) := by
  unfold processRow
  cases horf : orfSkip oset r.orfId with
  | true =>
    have hp : rowProcessed oset r = false := by simp [rowProcessed, horf]
    simp [horf, hp]
  | false =>
    by_cases hlen : r.lengthNT.getD 0 = 0
    · have hp : rowProcessed oset r = false := by simp [rowProcessed, horf, hlen]
      simp [horf, hlen, hp]
    · have hp : rowProcessed oset r = true := by simp [rowProcessed, horf, hlen]
      simp only [horf, Bool.false_eq_true, if_false, hlen, hp, if_true]
      refine ⟨?_, ?_, ?_⟩
      · rw [schemeStep_abund_total _ _ _ _ _ _ _ _ _ hk]
      · rw [schemeStep_abund_total _ _ _ _ _ _ _ _ _ hc]
      · rw [update_dicts_abund_total _ _ _ _ _ _ _ _ (trustedSkip_false _)]

lemma foldl_processRow_abund_totals {n : ℕ} (t : Bool) (cm : List String)
    (oset : Option (List String)) (rows : List (Row n)) :
    ∀ st : OrfState n,
      (∀ r ∈ rows, ¬ trustedSkip t r.keggCell) →
      (∀ r ∈ rows, ¬ trustedSkip t r.cogCell) →
      dictTotal ((rows.foldl (processRow false false false t false cm oset) st).kegg.abundances)
          = dictTotal st.kegg.abundances
            + ((rows.filter (rowProcessed oset)).map abundVec).sum ∧
      dictTotal ((rows.foldl (processRow false false false t false cm oset) st).cog.abundances)
          = dictTotal st.cog.abundances
            + ((rows.filter (rowProcessed oset)).map abundVec).sum ∧
      dictTotal ((rows.foldl (processRow false false false t false cm oset) st).pfam.abundances)
          = dictTotal st.pfam.abundances
            + ((rows.filter (rowProcessed oset)).map abundVec).sum := by
  induction rows with
  | nil =>
    intro st hk hc
    simp
  | cons r rest ih =>
    intro st hk hc
    simp only [List.foldl_cons]
    obtain ⟨e1, e2, e3⟩ := ih (processRow false false false t false cm oset st r)
      (fun x hx => hk x (by simp [hx])) (fun x hx => hc x (by simp [hx]))
    obtain ⟨p1, p2, p3⟩ := processRow_abund_totals t cm oset st r
      (hk r (by simp)) (hc r (by simp))
    by_cases hp : rowProcessed oset r = true
    · refine ⟨?_, ?_, ?_⟩ <;>
        simp [e1, e2, e3, p1, p2, p3, hp, List.filter_cons, add_assoc]
    · refine ⟨?_, ?_, ?_⟩ <;>
        simp [e1, e2, e3, p1, p2, p3, hp, List.filter_cons]

lemma processRow_orfs {n : ℕ} (nokegg nocog nopfam t ig : Bool) (cm : List String)
    (oset : Option (List String)) (st : OrfState n) (r : Row n)
    (hskip : orfSkip oset r.orfId = false) (hlen : r.lengthNT.getD 0 ≠ 0) :
    (processRow nokegg nocog nopfam t ig cm oset st r).orfs
      = setOrfs st.orfs r (r.lengthNT.getD 0) := by
  unfold processRow
  simp [hskip, hlen]

/-! ### Helper lemmas about the normalizer and TPM -/

lemma fvSum_fold_vals {n : ℕ} (D : List (String × Vec n)) (acc : Vec n) :
    (D.map (fun kv => (kv.1, toFVec kv.2))).foldl
        (fun acc kv => fun i => FV.fadd (acc i) (kv.2 i)) (toFVec acc)
      = toFVec (acc + qTotal D) := by
  induction D generalizing acc with
  | nil => simp [qTotal]
  | cons kv rest ih =>
    simp only [List.map_cons, List.foldl_cons]
    have h1 : (fun i => FV.fadd (toFVec acc i)
        (((kv.1, toFVec kv.2) : String × FVec n).2 i)) = toFVec (acc + kv.2) := by
      funext i
      simp [toFVec, FV.fadd]
    rw [h1, ih]
    simp only [qTotal, List.map_cons, List.sum_cons]
    rw [add_assoc]

lemma fvSum_fvDict {n : ℕ} (D : List (String × Vec n)) :
    fvSum (fvDict D) = toFVec (qTotal D) := by
  have h := fvSum_fold_vals D 0
  simpa [fvSum, fvDict, toFVec] using h

lemma normalize_fvDict {n : ℕ} (D : List (String × Vec n)) (s : ℚ)
    (hT : ∀ i, qTotal D i ≠ 0) :
    normalize_abunds (fvDict D) (FV.val s) = fvDict (qnormalize D s) := by
  unfold normalize_abunds qnormalize
  rw [fvSum_fvDict]
  unfold fvDict
  rw [List.map_map, List.map_map]
  apply List.map_congr_left
  intro kv _
  simp only [Function.comp_apply]
  congr 1
  funext i
  simp only [toFVec, FV.fmul]
  simp [FV.fdiv, hT i]

lemma qTotal_map_div {n : ℕ} (D : List (String × Vec n)) (s : ℚ) (T : Vec n) :
    qTotal (D.map (fun kv => (kv.1, fun i => s * kv.2 i / T i)))
      = fun i => s * qTotal D i / T i := by
  induction D with
  | nil =>
    funext i
    simp [qTotal]
  | cons kv rest ih =>
    funext i
    simp only [List.map_cons, qTotal, List.sum_cons, Pi.add_apply] at ih ⊢
    rw [congrFun ih i]
    rw [div_add_div_same, ← mul_add]

lemma qTotal_qnormalize {n : ℕ} (D : List (String × Vec n)) (s : ℚ)
    (hT : ∀ i, qTotal D i ≠ 0) :
    qTotal (qnormalize D s) = fun _ => s := by
  unfold qnormalize
  rw [qTotal_map_div]
  funext i
  rw [mul_div_assoc, div_self (hT i), mul_one]

lemma qnormalize_qnormalize {n : ℕ} (D : List (String × Vec n)) (s : ℚ)
    (hs : s ≠ 0) (hT : ∀ i, qTotal D i ≠ 0) :
    qnormalize (qnormalize D s) s = qnormalize D s := by
  rw [show qnormalize (qnormalize D s) s
      = (qnormalize D s).map (fun kv => (kv.1, fun i => s * kv.2 i / qTotal (qnormalize D s) i))
    from rfl]
  rw [qTotal_qnormalize D s hT]
  have hf : ∀ kv : String × Vec n,
      ((kv.1, fun i => s * kv.2 i / (fun _ => s) i) : String × Vec n) = kv := by
    intro kv
    rcases kv with ⟨k, v⟩
    simp only [Prod.mk.injEq, true_and]
    funext i
    exact mul_div_cancel_left₀ (v i) hs
  rw [List.map_congr_left (fun kv _ => hf kv)]
  exact List.map_id _

lemma fvSum_fold_zero_at {n : ℕ} (d : List (String × FVec n)) (j : Fin n) :
    ∀ acc : FVec n, (∀ kv ∈ d, kv.2 j = FV.val 0) → acc j = FV.val 0 →
      (d.foldl (fun acc kv => fun i => FV.fadd (acc i) (kv.2 i)) acc) j = FV.val 0 := by
  induction d with
  | nil =>
    intro acc _ hacc
    simpa using hacc
  | cons kv rest ih =>
    intro acc h hacc
    simp only [List.foldl_cons]
    apply ih _ (fun x hx => h x (by simp [hx]))
    show FV.fadd (acc j) (kv.2 j) = FV.val 0
    rw [hacc, h kv (by simp)]
    simp [FV.fadd]

lemma fvSum_zero_at {n : ℕ} (d : List (String × FVec n)) (j : Fin n)
    (h : ∀ kv ∈ d, kv.2 j = FV.val 0) : fvSum d j = FV.val 0 :=
  fvSum_fold_zero_at d j _ h rfl

/-! ### Claim theorems -/

/-- C1 (counterexample): parsing `"k_Bacteria;p_Proteobacteria;s_E.coli"` does
not return the list claimed by the spec, whose inherited placeholders carry
the name `Proteobacteria`. -/
theorem c1_counterexample :
    (parse_tax_string "k_Bacteria;p_Proteobacteria;s_E.coli").map Prod.fst ≠
      Except.ok ["Bacteria", "Proteobacteria", "Proteobacteria (no class in NCBI)",
        "Proteobacteria (no order in NCBI)", "Proteobacteria (no family in NCBI)",
        "Proteobacteria (no genus in NCBI)", "E.coli"] := by
  intro h
  rw [show (parse_tax_string "k_Bacteria;p_Proteobacteria;s_E.coli").map Prod.fst =
      Except.ok ["Bacteria", "Proteobacteria", "E.coli (no class in NCBI)",
        "E.coli (no order in NCBI)", "E.coli (no family in NCBI)",
        "E.coli (no genus in NCBI)", "E.coli"] from rfl] at h
  simp at h

/-- C1 (amended): parsing `"k_Bacteria;p_Proteobacteria;s_E.coli"` returns the
7-element list whose inherited placeholders for the missing intermediate
ranks carry the name of the most specific classified rank, the species
`E.coli` — not the phylum `Proteobacteria`. -/
theorem c1_inherits_most_specific :
    (parse_tax_string "k_Bacteria;p_Proteobacteria;s_E.coli").map Prod.fst =
      Except.ok ["Bacteria", "Proteobacteria", "E.coli (no class in NCBI)",
        "E.coli (no order in NCBI)", "E.coli (no family in NCBI)",
        "E.coli (no genus in NCBI)", "E.coli"] := by rfl

/-- C4 (counterexample): parsing the entirely empty taxonomy string does not
return any list — tokenization fails (Python raises `ValueError` building the
rank dict from the underscore-free token), so the parser fails instead of
returning all-"Unclassified". -/
theorem c4_counterexample : (parse_tax_string "").toOption = none := by rfl

/-- C4 (amended): a taxonomy string that tokenizes (every token contains an
underscore) but contains no recognized rank symbol — such as the sentinel
`"n_Unclassified"` that callers substitute for empty taxonomies — yields the
7-element all-"Unclassified" list (plain form, no derived name); the entirely
empty string instead fails during tokenization. -/
theorem c4_unrecognized_all_unclassified (s : String) (toks : List (String × String))
    (htok : tokenizePairs (splitChar ';' (stripChar ';' s.data)) = Except.ok toks)
    (h : ∀ kv ∈ toks, kv.1 ∉ TAXRANKS_SHORT) :
    (parse_tax_string s).map Prod.fst = Except.ok (List.replicate 7 "Unclassified") := by
  have hlook : ∀ r ∈ TAXRANKS_SHORT.reverse, taxLookup toks r = none := by
    intro r hr
    exact taxLookup_eq_none (fun kv hkv hk => h kv hkv (hk ▸ List.mem_reverse.mp hr))
  have hwalk : taxListOf toks = List.replicate 7 "Unclassified" := by
    unfold taxListOf
    rw [taxWalk_all_none hlook]
    rfl
  have hparse : parse_tax_string s = Except.ok (parseTaxTokens toks) := by
    unfold parse_tax_string
    rw [htok]
    rfl
  rw [hparse]
  unfold parseTaxTokens
  rw [hwalk]
  rfl

/-- Witness for C4 (amended), at the caller-supplied sentinel string
`"n_Unclassified"`. -/
theorem c4_unrecognized_witness :
    tokenizePairs (splitChar ';' (stripChar ';' "n_Unclassified".data)) =
        Except.ok [("n", "Unclassified")] ∧
      (∀ kv ∈ [(("n" : String), ("Unclassified" : String))], kv.1 ∉ TAXRANKS_SHORT) ∧
      (parse_tax_string "n_Unclassified").map Prod.fst =
        Except.ok (List.replicate 7 "Unclassified") :=
  ⟨rfl, by decide,
    c4_unrecognized_all_unclassified "n_Unclassified" [("n", "Unclassified")] rfl (by decide)⟩

/-- C8: whenever the parser succeeds, the taxon list has exactly 7 entries
and each rank-prefixed joined string extends the previous rank's string by a
semicolon and the current rank-prefixed entry (cumulative nesting invariant). -/
theorem c8_seven_entries_nested (s : String) (tl wr : List String)
    (h : parse_tax_string s = Except.ok (tl, wr)) :
    tl.length = 7 ∧ wr.length = 7 ∧
      ∀ i : ℕ, 1 ≤ i → i < 7 →
        wr.getD i "" = wr.getD (i - 1) "" ++ ";" ++
          (TAXRANKS_SHORT.getD i "" ++ "_" ++ tl.getD i "") := by
  unfold parse_tax_string at h
  cases htok : tokenizePairs (splitChar ';' (stripChar ';' s.data)) with
  | error e =>
    rw [htok] at h
    exact absurd h (by simp [Except.map])
  | ok toks =>
    rw [htok] at h
    replace h : Except.ok (parseTaxTokens toks) = Except.ok (tl, wr) := h
    injection h with h
    have htl : tl = taxListOf toks := (congrArg Prod.fst h).symm
    have hwr : wr = mkWranks (TAXRANKS_SHORT.zip (taxListOf toks)) none :=
      (congrArg Prod.snd h).symm
    subst htl
    subst hwr
    have hlen := taxListOf_length toks
    have hnest := mkWranks_nested _ hlen
    exact ⟨hlen, hnest.1, hnest.2⟩

/-- Witness for C8, at the input `"k_Bacteria"`. -/
theorem c8_witness :
    parse_tax_string "k_Bacteria" = Except.ok (taxListKB, wranksKB) ∧
      (taxListKB.length = 7 ∧ wranksKB.length = 7 ∧
        ∀ i : ℕ, 1 ≤ i → i < 7 →
          wranksKB.getD i "" = wranksKB.getD (i - 1) "" ++ ";" ++
            (TAXRANKS_SHORT.getD i "" ++ "_" ++ taxListKB.getD i "")) :=
  ⟨rfl, c8_seven_entries_nested "k_Bacteria" taxListKB wranksKB rfl⟩

/-- C6: one ORF with KEGG cell `"K00001*;K00002*"`, abundance `[10, 0]` and
`Length NT` 300 produces KEGG entities `K00001` and `K00002`, each with
abundance `[5, 0]`, copies `[1, 0]` (the copy unit is not divided) and
length `[150, 0]`. -/
theorem c6_multi_id_split :
    ((dictGet? resMultiKO.kegg.abundances "K00001").map (fun v => (v 0, v 1))
        = some ((5 : ℚ), 0)) ∧
    ((dictGet? resMultiKO.kegg.abundances "K00002").map (fun v => (v 0, v 1))
        = some ((5 : ℚ), 0)) ∧
    ((dictGet? resMultiKO.kegg.copies "K00001").map (fun v => (v 0, v 1))
        = some ((1 : ℚ), 0)) ∧
    ((dictGet? resMultiKO.kegg.copies "K00002").map (fun v => (v 0, v 1))
        = some ((1 : ℚ), 0)) ∧
    ((dictGet? resMultiKO.kegg.lengths "K00001").map (fun v => (v 0, v 1))
        = some ((150 : ℚ), 0)) ∧
    ((dictGet? resMultiKO.kegg.lengths "K00002").map (fun v => (v 0, v 1))
        = some ((150 : ℚ), 0)) := by
  with_unfolding_all decide

/-- C2 (counterexample): for a table whose single ORF has zero reads and zero
bases in the only sample, the per-sample reads-per-kilobase total is zero and
the finalized ORF `tpm` mapping contains a not-a-number value — refuting the
claim that no NaN appears in any finalized tpm mapping. -/
theorem c2_counterexample :
    (dictGet? (parse_orf_table false false false false false [] none [rowAllZero]).orfsTpm
      "ORF1").map (fun v => (v 0).isnan) = some true := by
  with_unfolding_all decide

/-- C3 (counterexample): a table whose single ORF carries COG0468 with
coverage zero in every sample still gets copy-number mappings computed (the
engine tests key presence, not non-zero coverage), refuting the claimed
omission. -/
theorem c3_counterexample :
    let res := parse_orf_table false false false false false [] none [rowZeroCovRecA]
    ((dictGet? res.cog.coverages "COG0468").map (fun v => v 0) = some (0 : ℚ)) ∧
      res.cogCopyNumber.isSome = true := by
  with_unfolding_all decide

/-- C3 (amended): the engine omits the copy-number mappings (for every
scheme together) exactly when COG aggregation is disabled or the `COG0468`
key is absent from the accumulated COG coverages; in particular a COG0468
entry whose coverage is zero in every sample still yields copy-number
mappings. -/
theorem c3_omitted_iff_marker_absent {n : ℕ}
    (nokegg nocog nopfam trusted_only ignore_unclassified_fun : Bool)
    (customMethods : List String) (orfSet : Option (List String)) (rows : List (Row n)) :
    let res := parse_orf_table nokegg nocog nopfam trusted_only ignore_unclassified_fun
      customMethods orfSet rows
    ((res.cogCopyNumber = none) ↔
        (nocog = true ∨ dictGet? res.cog.coverages "COG0468" = none)) ∧
    ((res.keggCopyNumber = none) ↔
        (nocog = true ∨ dictGet? res.cog.coverages "COG0468" = none)) ∧
    ((res.pfamCopyNumber = none) ↔
        (nocog = true ∨ dictGet? res.cog.coverages "COG0468" = none)) ∧
    ((res.customCopyNumber = none) ↔
        (nocog = true ∨ dictGet? res.cog.coverages "COG0468" = none)) := by
  simp only [parse_orf_table]
  cases nocog with
  | true => simp
  | false =>
    rcases hg : dictGet?
        ((rows.foldl
          (processRow nokegg false nopfam trusted_only ignore_unclassified_fun
            customMethods orfSet)
          (initState n customMethods)).cog.coverages) "COG0468" with _ | v
    · simp [hg]
    · simp [hg]

/-- Witness for C3 (amended): on an empty one-sample table with COG enabled,
the COG0468 key is absent and every copy-number mapping is omitted. -/
theorem c3_omitted_witness :
    let res := parse_orf_table false false false false false [] none ([] : List (Row 1))
    ((res.cogCopyNumber = none) ↔
        (false = true ∨ dictGet? res.cog.coverages "COG0468" = none)) ∧
    ((res.keggCopyNumber = none) ↔
        (false = true ∨ dictGet? res.cog.coverages "COG0468" = none)) ∧
    ((res.pfamCopyNumber = none) ↔
        (false = true ∨ dictGet? res.cog.coverages "COG0468" = none)) ∧
    ((res.customCopyNumber = none) ↔
        (false = true ∨ dictGet? res.cog.coverages "COG0468" = none)) :=
  c3_omitted_iff_marker_absent false false false false false [] none ([] : List (Row 1))

/-- C9: a data row whose `Length NT` resolves to zero (the cell is `0` or
empty) is skipped: the engine state after the row — every accumulator of
every functional scheme and of the ORF-level record — is exactly the state
before it.  (The source also prints the row as a diagnostic; output is not
modelled.) -/
theorem c9_zero_length_row_skipped {n : ℕ}
    (nokegg nocog nopfam trusted_only ignore_unclassified_fun : Bool)
    (customMethods : List String) (orfSet : Option (List String))
    (st : OrfState n) (r : Row n) (h : r.lengthNT.getD 0 = 0) :
    processRow nokegg nocog nopfam trusted_only ignore_unclassified_fun
      customMethods orfSet st r = st := by
  unfold processRow
  by_cases hskip : orfSkip orfSet r.orfId = true
  · simp [hskip]
  · simp [hskip, h]

/-- Witness for C9: the rRNA-style row with an empty `Length NT` cell leaves
the initial state untouched. -/
theorem c9_witness :
    rowNoLength.lengthNT.getD 0 = 0 ∧
      processRow false false false false false [] none (initState 1 []) rowNoLength =
        initState 1 [] :=
  ⟨rfl, c9_zero_length_row_skipped false false false false false [] none
    (initState 1 []) rowNoLength rfl⟩

/-- C5: with unclassified rows kept and no row skipped by the trusted-only
policy, every functional scheme conserves abundance: for every sample, the
sum over all function entities of the scheme's abundances equals the sum of
the abundance vectors of all contributing (non-skipped) rows. -/
theorem c5_abundance_conservation {n : ℕ} (trusted_only : Bool) (customMethods : List String)
    (orfSet : Option (List String)) (rows : List (Row n))
    (hk : ∀ r ∈ rows, ¬ trustedSkip trusted_only r.keggCell)
    (hc : ∀ r ∈ rows, ¬ trustedSkip trusted_only r.cogCell) :
    let res := parse_orf_table false false false trusted_only false customMethods orfSet rows
    dictTotal res.kegg.abundances = ((rows.filter (rowProcessed orfSet)).map abundVec).sum ∧
    dictTotal res.cog.abundances = ((rows.filter (rowProcessed orfSet)).map abundVec).sum ∧
    dictTotal res.pfam.abundances = ((rows.filter (rowProcessed orfSet)).map abundVec).sum := by
  obtain ⟨e1, e2, e3⟩ := foldl_processRow_abund_totals trusted_only customMethods orfSet rows
    (initState n customMethods) hk hc
  simp only [parse_orf_table]
  refine ⟨?_, ?_, ?_⟩
  · rw [e1]
    simp [initState, emptyFunData, dictTotal]
  · rw [e2]
    simp [initState, emptyFunData, dictTotal]
  · rw [e3]
    simp [initState, emptyFunData, dictTotal]

/-- Witness for C5, with the trusted-only policy active and the confirmed
multi-KO row (its KEGG cell ends in the confirmation marker, its COG cell is
empty, so nothing is skipped). -/
theorem c5_witness :
    (∀ r ∈ [rowMultiKO], ¬ trustedSkip true r.keggCell) ∧
    (∀ r ∈ [rowMultiKO], ¬ trustedSkip true r.cogCell) ∧
    (let res := parse_orf_table false false false true false [] none [rowMultiKO]
     dictTotal res.kegg.abundances
        = (([rowMultiKO].filter (rowProcessed none)).map abundVec).sum ∧
     dictTotal res.cog.abundances
        = (([rowMultiKO].filter (rowProcessed none)).map abundVec).sum ∧
     dictTotal res.pfam.abundances
        = (([rowMultiKO].filter (rowProcessed none)).map abundVec).sum) :=
  ⟨by decide, by decide,
    c5_abundance_conservation true [] none [rowMultiKO] (by decide) (by decide)⟩

/-- C10: when two data rows carry the same ORF identifier, the ORF-level
record keeps only the second row's five vectors (the dictionary assignments
overwrite), while the functional schemes accumulate both rows, so the
ORF-level and function-level abundance totals disagree whenever the first
row's abundance is non-zero. -/
theorem c10_duplicate_orf_overwrite_vs_accumulate {n : ℕ} (customMethods : List String)
    (r1 r2 : Row n) (horf : r1.orfId = r2.orfId)
    (h1 : r1.lengthNT.getD 0 ≠ 0) (h2 : r2.lengthNT.getD 0 ≠ 0) :
    let res := parse_orf_table false false false false false customMethods none [r1, r2]
    dictGet? res.orfs.abundances r2.orfId = some (abundVec r2) ∧
    dictGet? res.orfs.bases r2.orfId = some (basesVec r2) ∧
    dictGet? res.orfs.coverages r2.orfId = some r2.coverages ∧
    dictGet? res.orfs.copies r2.orfId = some (copiesVec r2) ∧
    dictGet? res.orfs.lengths r2.orfId = some (lengthsVec r2 (r2.lengthNT.getD 0)) ∧
    dictTotal res.kegg.abundances = abundVec r1 + abundVec r2 ∧
    (abundVec r1 ≠ 0 → dictTotal res.orfs.abundances ≠ dictTotal res.kegg.abundances) := by
  simp only [parse_orf_table]
  obtain ⟨e1, _, _⟩ := foldl_processRow_abund_totals false customMethods none [r1, r2]
    (initState n customMethods) (fun r _ => trustedSkip_false _)
    (fun r _ => trustedSkip_false _)
  have hp1 : rowProcessed none r1 = true := by simp [rowProcessed, orfSkip, h1]
  have hp2 : rowProcessed none r2 = true := by simp [rowProcessed, orfSkip, h2]
  have horfs : ([r1, r2].foldl (processRow false false false false false customMethods none)
      (initState n customMethods)).orfs
      = setOrfs (setOrfs (initState n customMethods).orfs r1 (r1.lengthNT.getD 0)) r2
          (r2.lengthNT.getD 0) := by
    simp only [List.foldl_cons, List.foldl_nil]
    rw [processRow_orfs false false false false false customMethods none _ r2 rfl h2]
    rw [processRow_orfs false false false false false customMethods none _ r1 rfl h1]
  rw [horfs, e1]
  simp only [hp1, hp2, List.filter_cons, if_true, List.filter_nil, List.map_cons,
    List.map_nil, List.sum_cons, List.sum_nil]
  refine ⟨?_, ?_, ?_, ?_, ?_, ?_, ?_⟩ <;>
    simp [setOrfs, initState, emptyFunData, dictSet, dictGet?, dictTotal, horf]

/-- Witness for C10, at the two concrete rows sharing ORF ID `"ORFX"`. -/
theorem c10_witness :
    rowDupA.orfId = rowDupB.orfId ∧ rowDupA.lengthNT.getD 0 ≠ 0 ∧
      rowDupB.lengthNT.getD 0 ≠ 0 ∧
    (let res := parse_orf_table false false false false false [] none [rowDupA, rowDupB]
     dictGet? res.orfs.abundances rowDupB.orfId = some (abundVec rowDupB) ∧
     dictGet? res.orfs.bases rowDupB.orfId = some (basesVec rowDupB) ∧
     dictGet? res.orfs.coverages rowDupB.orfId = some rowDupB.coverages ∧
     dictGet? res.orfs.copies rowDupB.orfId = some (copiesVec rowDupB) ∧
     dictGet? res.orfs.lengths rowDupB.orfId
        = some (lengthsVec rowDupB (rowDupB.lengthNT.getD 0)) ∧
     dictTotal res.kegg.abundances = abundVec rowDupA + abundVec rowDupB ∧
     (abundVec rowDupA ≠ 0 →
        dictTotal res.orfs.abundances ≠ dictTotal res.kegg.abundances)) :=
  ⟨rfl, by decide, by decide,
    c10_duplicate_orf_overwrite_vs_accumulate [] rowDupA rowDupB rfl
      (by decide) (by decide)⟩

/-- C7 (counterexample): with scale 0 the normalizer is not idempotent even
though the input's per-sample sums are non-zero — the first pass returns all
zeros, and renormalizing those divides by a zero total, producing `nan`. -/
theorem c7_counterexample :
    normalize_abunds (normalize_abunds (fvDict dNorm) (FV.val 0)) (FV.val 0)
      ≠ normalize_abunds (fvDict dNorm) (FV.val 0) := by
  with_unfolding_all decide

/-- C7 (amended): for every mapping of entities to finite per-sample vectors
whose per-sample sums are all non-zero and every NON-ZERO scale `s`,
normalizing and then renormalizing with the same scale reproduces the result
exactly.  (The embedding is purely functional: `normalize_abunds` returns a
new mapping and cannot mutate its input.) -/
theorem c7_normalize_idempotent {n : ℕ} (D : List (String × Vec n)) (s : ℚ)
    (hs : s ≠ 0) (hT : ∀ i, qTotal D i ≠ 0) :
    normalize_abunds (normalize_abunds (fvDict D) (FV.val s)) (FV.val s)
      = normalize_abunds (fvDict D) (FV.val s) := by
  have hT2 : ∀ i, qTotal (qnormalize D s) i ≠ 0 := by
    intro i
    rw [qTotal_qnormalize D s hT]
    exact hs
  rw [normalize_fvDict D s hT]
  rw [normalize_fvDict (qnormalize D s) s hT2]
  rw [qnormalize_qnormalize D s hs hT]

/-- Witness for C7 (amended), at a one-entity dictionary and scale 2. -/
theorem c7_witness :
    ((2 : ℚ) ≠ 0) ∧ (∀ i : Fin 1, qTotal dNorm i ≠ 0) ∧
      normalize_abunds (normalize_abunds (fvDict dNorm) (FV.val 2)) (FV.val 2)
        = normalize_abunds (fvDict dNorm) (FV.val 2) :=
  ⟨by norm_num, by with_unfolding_all decide,
    c7_normalize_idempotent dNorm 2 (by norm_num) (by with_unfolding_all decide)⟩

/-- C2 (amended): not-a-number reads-per-kilobase values (from zero copies or
zero average length) are coerced to zero, so the cleaned reads-per-kilobase
mapping never contains NaN; but the per-sample normalization total is not
protected — in a sample where every entity's cleaned reads-per-kilobase is
zero (total zero), every entity's finalized `tpm` value in that sample is
NaN. -/
theorem c2_rpk_cleaned_but_total_unprotected :
    (∀ (n : ℕ) (fd : FunData n) (kv : String × FVec n) (i : Fin n),
        kv ∈ rpk_clean fd → (kv.2 i).isnan = false) ∧
    (∀ (n : ℕ) (fd : FunData n) (j : Fin n),
        (∀ kv ∈ rpk_clean fd, kv.2 j = FV.val 0) →
        ∀ kv ∈ tpm fd, kv.2 j = FV.nan) := by
  constructor
  · intro n fd kv i hkv
    unfold rpk_clean at hkv
    obtain ⟨kv', hkv', rfl⟩ := List.mem_map.mp hkv
    show (if (kv'.2 i).isnan = true then FV.val 0 else kv'.2 i).isnan = false
    by_cases h : (kv'.2 i).isnan = true
    · rw [if_pos h]
      rfl
    · rw [if_neg h]
      simpa using h
  · intro n fd j hall kv hkv
    have hsum : fvSum (rpk_clean fd) j = FV.val 0 := fvSum_zero_at _ _ hall
    unfold tpm normalize_abunds at hkv
    obtain ⟨kv', hkv', rfl⟩ := List.mem_map.mp hkv
    have hz : kv'.2 j = FV.val 0 := hall kv' hkv'
    show FV.fdiv (FV.fmul (FV.val 1000000) (kv'.2 j)) (fvSum (rpk_clean fd) j) = FV.nan
    rw [hz, hsum]
    simp [FV.fmul, FV.fdiv]

/-- Witness for C2 (amended), at the all-zero one-entity accumulator. -/
theorem c2_amended_witness :
    (∀ kv ∈ rpk_clean fdAllZero, kv.2 0 = FV.val 0) ∧
      (∀ kv ∈ tpm fdAllZero, kv.2 0 = FV.nan) :=
  ⟨by with_unfolding_all decide,
    c2_rpk_cleaned_but_total_unprotected.2 1 fdAllZero 0 (by with_unfolding_all decide)⟩

end SqueezeMeta
